import Mathlib

/-!
Verification development for the eth-block-events repository.

Shallow embedding of the repository's core components:
* big-endian digit parsing shared by both decode paths,
* a value-level model of Python `Decimal` context arithmetic
  (28 significant digits, ROUND_HALF_EVEN — the default context used by
  `transform_data.py`),
* the live-path log decoder of
  `etl_python/services/event_listener.py` (byte-level: the source works on
  byte strings there),
* the batch-path transformer of `transform_data.py` (hex-digit level: the
  source works on `0x`-prefixed hex strings there; the model carries the
  digit values after the `0x` prefix),
* the publish/subscribe bus of `etl_python/services/event_bus.py`,
* the listener teardown of `EventListenerService.stop_listening`.

Notes on representation choices (each is documented again at its site):
* Python raising an exception is modelled with `Except String`;
  a `try/except` block is modelled by matching on the `Except` value.
* `web3.to_checksum_address` only changes the hexadecimal casing of a
  20-byte address and raises for inputs that are not 20 bytes; addresses
  are modelled as their byte (or hex-digit) sequences, so the
  normalization is the identity on valid inputs and an error otherwise.
* Python dict-of-lists subscriber registries are flattened into one
  insertion-ordered list; the per-kind list of the source is recovered as
  the filter by kind, which preserves per-kind insertion order.
-/

/-! ## Big-endian digit strings -/

/-- Value of a big-endian digit string in base `b`
(`int(s, 16)` on a hex string, `int(data.hex(), 16)` on bytes). -/
def beToNat (b : Nat) (l : List Nat) : Nat :=
  l.foldl (fun acc d => acc * b + d) 0

/-- The `k`-digit big-endian base-`b` encoding of `v` (keeps the low
`k` digits of `v`). -/
def natToBe (b : Nat) : Nat → Nat → List Nat
  | 0, _ => []
  | k + 1, v => natToBe b k (v / b) ++ [v % b]

/-- Python slice `l[-n:]` for `n > 0`: the last `n` elements
(drops nothing when the list is shorter than `n`). -/
def lastN (n : Nat) (l : List α) : List α :=
  l.drop (l.length - n)

-- Equality of modelled raise-or-return results is decidable (used to
-- evaluate the embedding at concrete inputs).
deriving instance DecidableEq for Except

theorem beToNat_go (b : Nat) (l : List Nat) (a : Nat) :
    l.foldl (fun acc d => acc * b + d) a = a * b ^ l.length + beToNat b l := by
  induction l generalizing a with
  | nil => simp [beToNat]
  | cons d t ih =>
    simp only [List.foldl_cons, beToNat, List.length_cons]
    rw [ih, ih (0 * b + d)]
    ring

theorem beToNat_append (b : Nat) (l₁ l₂ : List Nat) :
    beToNat b (l₁ ++ l₂) = beToNat b l₁ * b ^ l₂.length + beToNat b l₂ := by
  simp only [beToNat, List.foldl_append]
  rw [beToNat_go]
  rfl

theorem natToBe_length (b k v : Nat) : (natToBe b k v).length = k := by
  induction k generalizing v with
  | zero => rfl
  | succ k ih => simp [natToBe, ih]

theorem beToNat_natToBe (b : Nat) (hb : 1 < b) (k v : Nat) :
    beToNat b (natToBe b k v) = v % b ^ k := by
  induction k generalizing v with
  | zero => simp [natToBe, beToNat, Nat.mod_one]
  | succ k ih =>
    rw [natToBe, beToNat_append, ih]
    have h1 : beToNat b [v % b] = v % b := by simp [beToNat]
    have h2 : ([v % b] : List Nat).length = 1 := rfl
    rw [h1, h2, pow_one, pow_succ, Nat.mul_comm (b ^ k) b, Nat.mod_mul]
    ring

theorem beToNat_natToBe_of_lt (b : Nat) (hb : 1 < b) (k v : Nat) (hv : v < b ^ k) :
    beToNat b (natToBe b k v) = v := by
  rw [beToNat_natToBe b hb, Nat.mod_eq_of_lt hv]

/-! ## Python `Decimal` context arithmetic

`transform_data.py` accumulates `total_volume` and `hourly_volume` with
`decimal.Decimal` addition under the default context: 28 significant
digits, rounding mode ROUND_HALF_EVEN.  Every arithmetic operation
computes the exact result and then rounds its coefficient to 28
significant digits.  All quantities involved here are nonnegative
integers, so the model works on `Nat`.
-/

/-- Number of times the argument must be divided by 10 to fall below
`10 ^ 28`, i.e. the excess of its digit count over 28.  Fuel-bounded
structural recursion; fuel `256` is exact for every `n < 10 ^ 284`,
far beyond any sum of 256-bit log values. -/
def sigExpAux : Nat → Nat → Nat
  | 0, _ => 0
  | f + 1, m => if m < 10 ^ 28 then 0 else sigExpAux f (m / 10) + 1

/-- Round a nonnegative integer to 28 significant digits, half to even:
the rounding a Python `Decimal` operation applies to an exact integer
result under the default context. -/
def decRound (n : Nat) : Nat :=
  let e := sigExpAux 256 n
  if e = 0 then n
  else
    let p := 10 ^ e
    let q := n / p
    let r := n % p
    let h := p / 2
    if r < h then q * p
    else if h < r then (q + 1) * p
    else if q % 2 = 0 then q * p else (q + 1) * p

/-- Python `Decimal` addition of two nonnegative integer-valued decimals
under the default context: exact sum, then rounding. -/
def decAdd (a b : Nat) : Nat := decRound (a + b)

theorem sigExpAux_eq_zero (f m : Nat) (h : m < 10 ^ 28) : sigExpAux f m = 0 := by
  cases f with
  | zero => rfl
  | succ f => simp only [sigExpAux, if_pos h]

theorem decRound_eq_of_lt (n : Nat) (h : n < 10 ^ 28) : decRound n = n := by
  unfold decRound
  rw [sigExpAux_eq_zero 256 n h]
  simp

theorem decAdd_eq_add_of_lt (a b : Nat) (h : a + b < 10 ^ 28) :
    decAdd a b = a + b := decRound_eq_of_lt _ h

/-- Folding `decAdd` over a list is the exact sum as long as the exact
running total never reaches `10 ^ 28`. -/
theorem foldl_decAdd_eq_sum (l : List Nat) (a : Nat) (h : a + l.sum < 10 ^ 28) :
    l.foldl decAdd a = a + l.sum := by
  induction l generalizing a with
  | nil => simp
  | cons x t ih =>
    simp only [List.foldl_cons, List.sum_cons] at *
    rw [decAdd_eq_add_of_lt a x (by omega), ih (a + x) (by omega)]
    omega

/-! ## Live-path log decoder (`etl_python/services/event_listener.py`)

The listener receives logs whose topics and data are byte strings; bytes
are modelled as `List Nat` (each entry < 256).  The event-signature
constants of `etl_python/models/events.py` are hex strings compared
against `topics[0].hex()`; at byte level that comparison is equality
with the 32-byte value of the constant.
-/

/-- `EventSignatures.ERC20_TRANSFER`, as the 32 bytes of the constant. -/
def erc20TransferSig : List Nat :=
  natToBe 256 32 0xddf252ad1be2c89b69c2b068fc378daa952ba7f163c4a11628f55a4df523b3ef

/-- `EventSignatures.UNISWAP_SWAP` (= `UniswapSwapEvent.TOPIC_0`). -/
def uniswapSwapSig : List Nat :=
  natToBe 256 32 0x0d3648bd0f6ba80134a33ba9275ac585d9d315f0ad8355cddefde31afa28d0e9

/-- `EventSignatures.UNISWAP_INITIALIZE` (= `UniswapInitializeEvent.TOPIC_0`). -/
def uniswapInitSig : List Nat :=
  natToBe 256 32 0x98636036cb66a9c19a37435efc1e90142190214e8abeb821bdda3f2990dd4c95

/-- `EventSignatures.UNISWAP_MODIFY_LIQUIDITY`
(= `UniswapModifyLiquidityEvent.TOPIC_0`). -/
def uniswapModifyLiquiditySig : List Nat :=
  natToBe 256 32 0x3932abb5e2165f7c78ddef6502e29c06225afc2b9a4e51ae1d80f2ed7f6ac1a0

/-- `ContractConfig`: the fields the decoders read (name, address). -/
structure ContractB where
  name : String
  address : String

/-- A raw log as handed to `_handle_log_event`: topics and data as byte
strings, plus the scalar fields the decoders copy.  The transaction hash
is carried opaquely (the source only calls `.hex()` on it). -/
structure RawLogB where
  topics : List (List Nat)
  data : List Nat
  blockNumber : Nat
  txHash : String
  logIndex : Nat

/-- Python list indexing `l[i]` for a nonnegative index: raises
IndexError when out of range. -/
def listIdx (l : List α) (i : Nat) : Except String α :=
  match l.get? i with
  | some a => Except.ok a
  | none => Except.error ("list index out of range")

/-- `web3.to_checksum_address`: normalizes the hexadecimal casing of a
20-byte address and raises for anything that is not 20 bytes.  At byte
level the normalization is the identity; only the length check remains. -/
def toChecksumAddress (b : List Nat) : Except String (List Nat) :=
  if b.length = 20 then Except.ok b
  else Except.error ("could not convert to checksum address")

/-- `ERC20TransferEvent` (pydantic model), fields the decoder fills. -/
structure Erc20TransferEventB where
  contractAddress : String
  blockNumber : Nat
  txHash : String
  logIndex : Nat
  timestamp : Nat
  fromAddress : List Nat
  toAddress : List Nat
  value : Nat
  tokenSymbol : String
deriving DecidableEq

/-- `UniswapSwapEvent` (pydantic model), fields the decoder fills.
The placeholder string values of the source are modelled as the
distinguished short digit lists the source strings denote:
`"0x"` as `[]` and `"0x0"` as `[0]`. -/
structure UniswapSwapEventB where
  contractAddress : String
  blockNumber : Nat
  txHash : String
  logIndex : Nat
  timestamp : Nat
  poolId : List Nat
  sender : List Nat
  amount0 : Int
  amount1 : Int
  sqrtPriceX96 : Nat
  liquidity : Nat
  tick : Int
deriving DecidableEq

/-- `UniswapInitializeEvent` (pydantic model), fields the decoder fills. -/
structure UniswapInitEventB where
  contractAddress : String
  blockNumber : Nat
  txHash : String
  logIndex : Nat
  timestamp : Nat
  poolId : List Nat
  currency0 : List Nat
  currency1 : List Nat
  fee : Nat
  tickSpacing : Int
  hooks : List Nat
deriving DecidableEq

/-- `UniswapModifyLiquidityEvent` (pydantic model), fields the decoder
fills. -/
structure UniswapModifyLiquidityEventB where
  contractAddress : String
  blockNumber : Nat
  txHash : String
  logIndex : Nat
  timestamp : Nat
  poolId : List Nat
  sender : List Nat
  tickLower : Int
  tickUpper : Int
  liquidityDelta : Int
deriving DecidableEq

/-- Base `EthereumEvent` as built by `_create_generic_event`. -/
structure GenericEventB where
  eventName : String
  contractAddress : String
  blockNumber : Nat
  txHash : String
  logIndex : Nat
  timestamp : Nat
deriving DecidableEq

/-- `_create_erc20_transfer_event`: `from` and `to` are the checksum
normalization of the last 20 bytes of `topics[1]` / `topics[2]`;
`value = int(data.hex(), 16) if data else 0`, i.e. the big-endian value
of the whole data payload with empty data read as zero.  Accessing a
missing topic raises IndexError; the checksummer raises for non-20-byte
results; both propagate to the caller. -/
def createErc20TransferEvent (log : RawLogB) (contract : ContractB) (ts : Nat) :
    Except String Erc20TransferEventB := do
  let t1 ← listIdx log.topics 1
  let fromA ← toChecksumAddress (lastN 20 t1)
  let t2 ← listIdx log.topics 2
  let toA ← toChecksumAddress (lastN 20 t2)
  let v := if log.data.isEmpty then 0 else beToNat 256 log.data
  Except.ok
    { contractAddress := contract.address
      blockNumber := log.blockNumber
      txHash := log.txHash
      logIndex := log.logIndex
      timestamp := ts
      fromAddress := fromA
      toAddress := toA
      value := v
      tokenSymbol := contract.name }

/-- `_create_uniswap_swap_event`: pool id is `topics[1]` when present
(`"0x"`, modelled `[]`, otherwise); sender is the checksummed last 20
bytes of `topics[2]` when present (`"0x0"`, modelled `[0]`, otherwise);
every protocol-specific numeric field is the literal placeholder `0`
("Would decode from data" in the source). -/
def createUniswapSwapEvent (log : RawLogB) (contract : ContractB) (ts : Nat) :
    Except String UniswapSwapEventB := do
  let poolId := if log.topics.length > 1 then log.topics.getD 1 [] else []
  let sender ← if log.topics.length > 2 then
      toChecksumAddress (lastN 20 (log.topics.getD 2 []))
    else Except.ok [0]
  Except.ok
    { contractAddress := contract.address
      blockNumber := log.blockNumber
      txHash := log.txHash
      logIndex := log.logIndex
      timestamp := ts
      poolId := poolId
      sender := sender
      amount0 := 0
      amount1 := 0
      sqrtPriceX96 := 0
      liquidity := 0
      tick := 0 }

/-- `_create_uniswap_initialize_event`: pool id from `topics[1]` when
present; the currencies, fee, tick spacing and hooks fields are literal
placeholders (`"0x0"` modelled `[0]`, numbers `0`). -/
def createUniswapInitEvent (log : RawLogB) (contract : ContractB) (ts : Nat) :
    UniswapInitEventB :=
  { contractAddress := contract.address
    blockNumber := log.blockNumber
    txHash := log.txHash
    logIndex := log.logIndex
    timestamp := ts
    poolId := if log.topics.length > 1 then log.topics.getD 1 [] else []
    currency0 := [0]
    currency1 := [0]
    fee := 0
    tickSpacing := 0
    hooks := [0] }

/-- `_create_uniswap_modify_liquidity_event`: pool id and sender as in
the swap decoder; the tick bounds and liquidity delta are literal
placeholders `0`. -/
def createUniswapModifyLiquidityEvent (log : RawLogB) (contract : ContractB)
    (ts : Nat) : Except String UniswapModifyLiquidityEventB := do
  let poolId := if log.topics.length > 1 then log.topics.getD 1 [] else []
  let sender ← if log.topics.length > 2 then
      toChecksumAddress (lastN 20 (log.topics.getD 2 []))
    else Except.ok [0]
  Except.ok
    { contractAddress := contract.address
      blockNumber := log.blockNumber
      txHash := log.txHash
      logIndex := log.logIndex
      timestamp := ts
      poolId := poolId
      sender := sender
      tickLower := 0
      tickUpper := 0
      liquidityDelta := 0 }

/-- `_create_generic_event`: carries the event name of the subscribing
event config plus the log's scalar fields. -/
def createGenericEvent (log : RawLogB) (contract : ContractB)
    (eventConfigName : String) (ts : Nat) : GenericEventB :=
  { eventName := eventConfigName
    contractAddress := contract.address
    blockNumber := log.blockNumber
    txHash := log.txHash
    logIndex := log.logIndex
    timestamp := ts }

/-- Sum of the typed events `_handle_log_event` can produce. -/
inductive DecodedEvent where
  | erc20 : Erc20TransferEventB → DecodedEvent
  | swap : UniswapSwapEventB → DecodedEvent
  | uniInit : UniswapInitEventB → DecodedEvent
  | modifyLiquidity : UniswapModifyLiquidityEventB → DecodedEvent
  | generic : GenericEventB → DecodedEvent
deriving DecidableEq

/-- The body of `_handle_log_event`'s `try` block: dispatch on
`topics[0]` against the known signatures and run the matching decoder
(the block-timestamp lookup is abstracted into the `ts` argument). -/
def decodeLogEvent (log : RawLogB) (contract : ContractB)
    (eventConfigName : String) (ts : Nat) : Except String DecodedEvent := do
  let sig ← listIdx log.topics 0
  if sig = erc20TransferSig then
    return DecodedEvent.erc20 (← createErc20TransferEvent log contract ts)
  else if sig = uniswapSwapSig then
    return DecodedEvent.swap (← createUniswapSwapEvent log contract ts)
  else if sig = uniswapInitSig then
    return DecodedEvent.uniInit (createUniswapInitEvent log contract ts)
  else if sig = uniswapModifyLiquiditySig then
    return DecodedEvent.modifyLiquidity
      (← createUniswapModifyLiquidityEvent log contract ts)
  else
    return DecodedEvent.generic (createGenericEvent log contract eventConfigName ts)

/-- `_handle_log_event`: the `try/except` wrapper.  On success the typed
event is published (returned here); on any exception the log entry is
dropped and the error is written to the logger (returned as the second
component).  The exception never propagates. -/
def handleLogEvent (log : RawLogB) (contract : ContractB)
    (eventConfigName : String) (ts : Nat) : Option DecodedEvent × List String :=
  match decodeLogEvent log contract eventConfigName ts with
  | Except.ok ev => (some ev, [])
  | Except.error e => (none, [e])

/-! ## Batch-path transformer (`transform_data.py`)

The batch transformer receives event dicts whose topics and data are
`0x`-prefixed hex strings.  A hex string is modelled as the list of its
digit values after the prefix (each entry < 16); the constant `0x`
prefix carries no information.  `topics[1][-40:]` (the last 40 hex
characters = low-order 20 bytes) becomes `lastN 40`; `int(s, 16)`
becomes `beToNat 16`.  The source reads `event.get('timestamp')` as a
unix timestamp: when it is truthy it is rendered with
`datetime.fromtimestamp(...).isoformat()` and the hour bucket
`isoformat()[:13]` ("YYYY-MM-DDTHH") is the hour index
`timestamp / 3600` (a fixed timezone offset relabels buckets without
merging or splitting them); when it is falsy (missing, `None`, or the
integer 0 — modelled as the value 0) the transformed record carries
`None`, and `transform_erc20_events` then raises
`TypeError: NoneType object is not subscriptable` at `None[:13]` and
aborts the whole batch.  The model mirrors this: the transformed
timestamp is an `Option`, and the batch transformer returns `Except`,
erroring on the first transfer whose timestamp is falsy.
-/

/-- `EventSignatures.ERC20_TRANSFER` as the 64 hex digits after `0x`. -/
def erc20TransferSigHex : List Nat :=
  natToBe 16 64 0xddf252ad1be2c89b69c2b068fc378daa952ba7f163c4a11628f55a4df523b3ef

/-- `EventSignatures.UNISWAP_SWAP` as hex digits. -/
def uniswapSwapSigHex : List Nat :=
  natToBe 16 64 0x0d3648bd0f6ba80134a33ba9275ac585d9d315f0ad8355cddefde31afa28d0e9

/-- `EventSignatures.UNISWAP_INITIALIZE` as hex digits. -/
def uniswapInitSigHex : List Nat :=
  natToBe 16 64 0x98636036cb66a9c19a37435efc1e90142190214e8abeb821bdda3f2990dd4c95

/-- `EventSignatures.UNISWAP_MODIFY_LIQUIDITY` as hex digits. -/
def uniswapModifyLiquiditySigHex : List Nat :=
  natToBe 16 64 0x3932abb5e2165f7c78ddef6502e29c06225afc2b9a4e51ae1d80f2ed7f6ac1a0

/-- An extracted raw event dict as consumed by the batch transformer:
topics and data as hex-digit lists, plus the scalar fields it reads. -/
structure RawEvt where
  topics : List (List Nat)
  data : List Nat
  blockNumber : Nat
  logIndex : Nat
  timestamp : Nat
deriving DecidableEq

/-- The dict `_transform_erc20_transfer` returns (fields that carry
data; the transaction-hash/gas passthrough fields are omitted — they are
copied verbatim and no claim mentions them).  `value_int` and
`value_decimal` denote the same integer; one field models both.
`'0x0'` placeholder addresses appear as `[0]`.  The timestamp field is
the rendered `isoformat()` string when the raw timestamp is truthy and
`None` otherwise, so it is an `Option` here. -/
structure TransferRecord where
  blockNumber : Nat
  logIndex : Nat
  fromAddress : List Nat
  toAddress : List Nat
  valueHexDigits : List Nat
  value : Nat
  timestamp : Option Nat
deriving DecidableEq

/-- `_is_erc20_transfer`: nonempty topics and `topics[0]` equal to the
ERC20 Transfer signature. -/
def isErc20Transfer (e : RawEvt) : Bool :=
  match e.topics with
  | [] => false
  | t :: _ => t = erc20TransferSigHex

/-- `_transform_erc20_transfer`: addresses are the last 40 hex digits of
`topics[1]` / `topics[2]` with `'0x0'` (modelled `[0]`) substituted when
the topic is missing; the value is the integer value of the full data
payload, with the empty payload read as zero. -/
def transformErc20Transfer (e : RawEvt) : TransferRecord :=
  { blockNumber := e.blockNumber
    logIndex := e.logIndex
    fromAddress := if e.topics.length > 1 then lastN 40 (e.topics.getD 1 []) else [0]
    toAddress := if e.topics.length > 2 then lastN 40 (e.topics.getD 2 []) else [0]
    valueHexDigits := e.data
    value := if e.data.isEmpty then 0 else beToNat 16 e.data
    timestamp := if e.timestamp = 0 then none else some e.timestamp }

/-- The event's hour bucket (`isoformat()[:13]` in the source).  Read
only on records whose timestamp is present (the aggregation loop errors
before reaching it otherwise), so the `getD` default is never taken. -/
def hourKey (t : TransferRecord) : Nat := t.timestamp.getD 0 / 3600

/-- Insertion into a Python `set`, modelled as an insertion-ordered
duplicate-free list (only its size is ever read). -/
def setInsert (s : List (List Nat)) (a : List Nat) : List (List Nat) :=
  if a ∈ s then s else s ++ [a]

/-- `defaultdict` update: bump the entry at `k` (default `d`) with `f`. -/
def assocUpdate (m : List (Nat × Nat)) (k : Nat) (d : Nat) (f : Nat → Nat) :
    List (Nat × Nat) :=
  match m with
  | [] => [(k, f d)]
  | (k', v) :: rest =>
    if k' = k then (k', f v) :: rest else (k', v) :: assocUpdate rest k d f

/-- `defaultdict` update keyed by an address. -/
def assocUpdateAddr (m : List (List Nat × Nat)) (k : List Nat) (d : Nat)
    (f : Nat → Nat) : List (List Nat × Nat) :=
  match m with
  | [] => [(k, f d)]
  | (k', v) :: rest =>
    if k' = k then (k', f v) :: rest else (k', v) :: assocUpdateAddr rest k d f

/-- The running `transfer_summary` state of `transform_erc20_events`. -/
structure TransferSummaryState where
  totalTransfers : Nat
  totalVolume : Nat
  uniqueAddressSet : List (List Nat)
  hourlyVolume : List (Nat × Nat)
  addressActivity : List (List Nat × Nat)
deriving DecidableEq

def emptyTransferSummary : TransferSummaryState :=
  { totalTransfers := 0
    totalVolume := 0
    uniqueAddressSet := []
    hourlyVolume := []
    addressActivity := [] }

/-- One iteration of the `for event in events` loop body after the
transfer has been decoded: all summary updates, with `Decimal`
accumulation (`decAdd`) for the volumes. -/
def summaryStep (s : TransferSummaryState) (t : TransferRecord) :
    TransferSummaryState :=
  { totalTransfers := s.totalTransfers + 1
    totalVolume := decAdd s.totalVolume t.value
    uniqueAddressSet := setInsert (setInsert s.uniqueAddressSet t.fromAddress) t.toAddress
    hourlyVolume := assocUpdate s.hourlyVolume (hourKey t) 0 (fun v => decAdd v t.value)
    addressActivity :=
      assocUpdateAddr (assocUpdateAddr s.addressActivity t.fromAddress 0 (· + 1))
        t.toAddress 0 (· + 1) }

/-- The loop of `transform_erc20_events`: events failing
`_is_erc20_transfer` are skipped (`continue`); the rest are transformed,
appended, and folded into the summary — unless the transformed
timestamp is `None`, in which case `hour_key = None[:13]` raises
`TypeError` and the whole call aborts (everything accumulated so far is
discarded with the raised call, so erroring before the record's other
updates is observationally the source's behavior). -/
def erc20Step (acc : Except String (List TransferRecord × TransferSummaryState))
    (e : RawEvt) : Except String (List TransferRecord × TransferSummaryState) :=
  match acc with
  | Except.error err => Except.error err
  | Except.ok (lst, s) =>
    if isErc20Transfer e then
      let t := transformErc20Transfer e
      match t.timestamp with
      | none => Except.error ("TypeError: NoneType object is not subscriptable")
      | some _ => Except.ok (lst ++ [t], summaryStep s t)
    else Except.ok (lst, s)

def erc20Loop (events : List RawEvt) :
    Except String (List TransferRecord × TransferSummaryState) :=
  events.foldl erc20Step (Except.ok ([], emptyTransferSummary))

/-- Comparator of `sorted(transformed_events, key=value, reverse=True)`:
keep `a` before `b` when `b`'s value is at most `a`'s (stable descending
order by value). -/
def valueDescLe (a b : TransferRecord) : Bool := b.value ≤ a.value

/-- The result shape of `transform_erc20_events` (summary flattened). -/
structure Erc20Output where
  events : List TransferRecord
  totalTransfers : Nat
  totalVolume : Nat
  uniqueAddresses : Nat
  topTransfers : List TransferRecord
  hourlyVolume : List (Nat × Nat)
  addressActivity : List (List Nat × Nat)
deriving DecidableEq

/-- `transform_erc20_events`: run the loop (propagating its `TypeError`
when a transfer's timestamp is falsy), then replace the address set by
its size and compute the top transfers as the first 10 entries of the
stable descending sort by value (Python `sorted` is stable; `mergeSort`
with this comparator is the same stable sort). -/
def transformErc20Events (events : List RawEvt) : Except String Erc20Output :=
  match erc20Loop events with
  | Except.error err => Except.error err
  | Except.ok (ts, s) =>
    Except.ok
      { events := ts
        totalTransfers := s.totalTransfers
        totalVolume := s.totalVolume
        uniqueAddresses := s.uniqueAddressSet.length
        topTransfers := (ts.mergeSort valueDescLe).take 10
        hourlyVolume := s.hourlyVolume
        addressActivity := s.addressActivity }

/-! ## Block transformation (`transform_data.py`)

`transform_block_data` computes the gas utilization as an exact real
ratio before banding; the float arithmetic of the source agrees with the
rational value on every claim boundary (1/2, 4/5 and 19/20 of the gas
limit scale to exactly 50.0, 80.0 and 95.0 in double precision), so the
utilization is modelled in `ℚ`.
-/

/-- The fields of `raw_block_data` that `transform_block_data` reads. -/
structure RawBlockData where
  gasUsed : Nat
  gasLimit : Nat
  txCount : Nat

/-- `(raw_block.get('gasUsed', 0) / raw_block.get('gasLimit', 1)) * 100`. -/
def gasUtilization (b : RawBlockData) : ℚ :=
  ((b.gasUsed : ℚ) / (b.gasLimit : ℚ)) * 100

/-- `_get_utilization_status`. -/
def getUtilizationStatus (u : ℚ) : String :=
  if u < 50 then "low"
  else if u < 80 then "moderate"
  else if u < 95 then "high"
  else "critical"

/-- Python `round(x, 2)` (round half to even at two decimals). -/
def roundHalfEvenQ (q : ℚ) : ℤ :=
  let f := ⌊q⌋
  let r := q - (f : ℚ)
  if r < 1 / 2 then f
  else if 1 / 2 < r then f + 1
  else if f % 2 = 0 then f else f + 1

/-- The `network_health`-relevant fields of the transformed block. -/
structure TransformedBlock where
  gasUtilizationPercent : ℚ
  utilizationStatus : String
  isFullBlock : Bool
  transactionThroughput : Nat
deriving DecidableEq

/-- `transform_block_data` (network-statistics portion): the status and
the full-block flag are computed from the unrounded utilization; only
the reported percentage is rounded to two decimals. -/
def transformBlockData (b : RawBlockData) : TransformedBlock :=
  let u := gasUtilization b
  { gasUtilizationPercent := (roundHalfEvenQ (u * 100) : ℚ) / 100
    utilizationStatus := getUtilizationStatus u
    isFullBlock := decide (u > 95)
    transactionThroughput := b.txCount }

/-! ## EventBus (`etl_python/services/event_bus.py`)

Event kinds (Python runtime types, the dispatch key `type(event)`) are
opaque numerals; distinct numerals model distinct runtime types, which
is exactly how a subclass relates to its base under `type(event)`
lookup.  A tagged handler method is its `(event kind, suspending?,
behavior)` data; a subscriber is its identity together with its tagged
methods in `dir()` order.  The two dict-of-lists registries are
flattened into insertion-ordered lists (per-kind order preserved, see
the header note).
-/

/-- A method tagged by the `@subscribe` decorator: its declared event
kind, whether it is a coroutine (concurrent group), and whether calling
it raises. -/
structure MethodInfo where
  methodId : Nat
  kind : Nat
  isAsync : Bool
  fails : Bool
deriving DecidableEq

/-- A subscriber object: identity plus its tagged methods in `dir()`
order. -/
structure Subscriber where
  subId : Nat
  methods : List MethodInfo
deriving DecidableEq

/-- A registered handler: a bound method, i.e. (instance, function).
Two bound methods are equal exactly when instance and function agree,
which is the `==` used by `unregister`'s membership test. -/
structure Handler where
  subId : Nat
  m : MethodInfo
deriving DecidableEq

/-- The bus registries (`_subscribers` and `_async_subscribers`). -/
structure EventBus where
  syncSubs : List Handler
  asyncSubs : List Handler
deriving DecidableEq

def emptyEventBus : EventBus := { syncSubs := [], asyncSubs := [] }

/-- `register`: for each tagged method, append unconditionally to the
concurrent registry if it is a coroutine, else to the synchronous one. -/
def register (bus : EventBus) (s : Subscriber) : EventBus :=
  s.methods.foldl
    (fun b m =>
      if m.isAsync then { b with asyncSubs := b.asyncSubs ++ [⟨s.subId, m⟩] }
      else { b with syncSubs := b.syncSubs ++ [⟨s.subId, m⟩] })
    bus

/-- `unregister`: for each tagged method, remove its first occurrence
from both registries (`list.remove` after a membership test; no-op when
absent). -/
def unregister (bus : EventBus) (s : Subscriber) : EventBus :=
  s.methods.foldl
    (fun b m =>
      { syncSubs := b.syncSubs.erase ⟨s.subId, m⟩
        asyncSubs := b.asyncSubs.erase ⟨s.subId, m⟩ })
    bus

def registerAll (subs : List Subscriber) : EventBus :=
  subs.foldl register emptyEventBus

/-- An event value: its runtime kind (`type(event)`). -/
structure BusEvent where
  kind : Nat
deriving DecidableEq

/-- Invoke one handler under the per-handler `try/except`: record the
invocation, and record the logged error when the handler raises. -/
def invokeCaught (acc : List Handler × List Nat) (h : Handler) :
    List Handler × List Nat :=
  (acc.1 ++ [h], if h.m.fails then acc.2 ++ [h.m.methodId] else acc.2)

/-- `post`: look the synchronous handlers up by the exact runtime kind
(per-kind registration order) and invoke each under the per-handler
`try/except`.  Result: (invocations in order, logged handler errors). -/
def post (bus : EventBus) (e : BusEvent) : List Handler × List Nat :=
  (bus.syncSubs.filter (fun h => h.m.kind = e.kind)).foldl invokeCaught ([], [])

/-- `post_async`: invoke the synchronous group exactly as `post`
(per-handler `try/except`, errors logged), then schedule every matching
concurrent handler as a task and gather them all with
`return_exceptions=True`; the call returns only once every task has
completed or failed, so the result carries one invocation entry per
concurrent handler as well.  The gathered result — and with it every
exception a concurrent handler raised — is discarded without logging:
only synchronous-group failures (and task-creation failures, which
cannot occur for the tagged coroutine methods modelled here) reach the
error log. -/
def postAsync (bus : EventBus) (e : BusEvent) : List Handler × List Nat :=
  let sres := (bus.syncSubs.filter (fun h => h.m.kind = e.kind)).foldl
    invokeCaught ([], [])
  (sres.1 ++ bus.asyncSubs.filter (fun h => h.m.kind = e.kind), sres.2)

/-! ## Listener teardown (`EventListenerService.stop_listening`) -/

/-- An `active_filters` entry: the node-side handle, with whether
`uninstall_filter` on it raises. -/
structure ActiveFilterB where
  filterId : Nat
  uninstallFails : Bool
deriving DecidableEq

/-- Listener state touched by `stop_listening`: the filter list and
whether a websocket connection exists. -/
structure ListenerStateB where
  activeFilters : List ActiveFilterB
  hasWs : Bool
deriving DecidableEq

/-- `__init__`: the filter list starts empty. -/
def initListener (hasWs : Bool) : ListenerStateB :=
  { activeFilters := [], hasWs := hasWs }

def uninstallErrMsg (f : ActiveFilterB) : String :=
  "Error uninstalling filter " ++ toString f.filterId

/-- `stop_listening`: best-effort uninstall of every active filter
(failures are caught and logged, never raised), then clear the list.
Total function: no exception escapes. -/
def stopListening (s : ListenerStateB) : ListenerStateB × List String :=
  let logs := s.activeFilters.foldl
    (fun acc f =>
      if s.hasWs && f.uninstallFails then acc ++ [uninstallErrMsg f] else acc)
    []
  ({ s with activeFilters := [] }, logs)

/-! ## Helper lemmas -/

theorem lastN_append_right (pre l : List Nat) (n : Nat) (h : l.length = n) :
    lastN n (pre ++ l) = l := by
  unfold lastN
  rw [List.length_append, h, Nat.add_sub_cancel]
  exact List.drop_left pre l

theorem natToBe_ne_nil (b k v : Nat) (hk : 0 < k) : natToBe b k v ≠ [] := by
  intro h
  have := natToBe_length b k v
  rw [h] at this
  simp at this
  omega

theorem natToBe_isEmpty (b k v : Nat) (hk : 0 < k) :
    (natToBe b k v).isEmpty = false := by
  cases h : natToBe b k v with
  | nil => exact absurd h (natToBe_ne_nil b k v hk)
  | cons a t => rfl

/-! ## Claim C1 -/

/-- The decoded shapes C1 asserts, for both decode paths: the live-path
decoder on a log with byte topics `[sig, pad1 ++ A, pad2 ++ B]` (for the
claim, the pads are 12 zero bytes) and data the 32-byte big-endian
encoding of `V` (resp. empty data), and the batch transformer on the
same log at hex-digit level (24-digit pads, 40-digit addresses). -/
def Erc20RoundtripProp (pad1 pad2 A B : List Nat) (V : Nat)
    (pn1 pn2 An Bn : List Nat) (W : Nat)
    (bn li ts bln lin tsn : Nat) (tx : String) (c : ContractB) : Prop :=
  (createErc20TransferEvent
      { topics := [erc20TransferSig, pad1 ++ A, pad2 ++ B]
        data := natToBe 256 32 V
        blockNumber := bn, txHash := tx, logIndex := li } c ts
    = Except.ok
      { contractAddress := c.address, blockNumber := bn, txHash := tx
        logIndex := li, timestamp := ts, fromAddress := A, toAddress := B
        value := V, tokenSymbol := c.name })
  ∧ (createErc20TransferEvent
      { topics := [erc20TransferSig, pad1 ++ A, pad2 ++ B]
        data := []
        blockNumber := bn, txHash := tx, logIndex := li } c ts
    = Except.ok
      { contractAddress := c.address, blockNumber := bn, txHash := tx
        logIndex := li, timestamp := ts, fromAddress := A, toAddress := B
        value := 0, tokenSymbol := c.name })
  ∧ (transformErc20Transfer
      { topics := [erc20TransferSigHex, pn1 ++ An, pn2 ++ Bn]
        data := natToBe 16 64 W
        blockNumber := bln, logIndex := lin, timestamp := tsn }
    = { blockNumber := bln, logIndex := lin, fromAddress := An, toAddress := Bn
        valueHexDigits := natToBe 16 64 W, value := W
        timestamp := if tsn = 0 then none else some tsn })
  ∧ (transformErc20Transfer
      { topics := [erc20TransferSigHex, pn1 ++ An, pn2 ++ Bn]
        data := []
        blockNumber := bln, logIndex := lin, timestamp := tsn }
    = { blockNumber := bln, logIndex := lin, fromAddress := An, toAddress := Bn
        valueHexDigits := [], value := 0
        timestamp := if tsn = 0 then none else some tsn })

/-- C1: ERC20 transfer decode round-trip.  For a raw log with topics
`[sig, pad20(A), pad20(B)]` and data the big-endian encoding of `V`,
both the live-path decoder and the batch transformer yield
`from = A` (low-order 20 bytes of topic 1), `to = B` (low-order 20 bytes
of topic 2) and `value = V` exactly, for every `V` below `2 ^ 256`
(hence in particular for 0, 1 and values beyond 64-bit range), and an
empty data payload decodes to value 0. -/
theorem erc20_transfer_decode_roundtrip
    (pad1 pad2 A B : List Nat) (hA : A.length = 20) (hB : B.length = 20)
    (V : Nat) (hV : V < 2 ^ 256)
    (pn1 pn2 An Bn : List Nat) (hAn : An.length = 40) (hBn : Bn.length = 40)
    (W : Nat) (hW : W < 2 ^ 256)
    (bn li ts bln lin tsn : Nat) (tx : String) (c : ContractB) :
    Erc20RoundtripProp pad1 pad2 A B V pn1 pn2 An Bn W bn li ts bln lin tsn tx c := by
  have eA : lastN 20 (pad1 ++ A) = A := lastN_append_right _ _ _ hA
  have eB : lastN 20 (pad2 ++ B) = B := lastN_append_right _ _ _ hB
  have eAn : lastN 40 (pn1 ++ An) = An := lastN_append_right _ _ _ hAn
  have eBn : lastN 40 (pn2 ++ Bn) = Bn := lastN_append_right _ _ _ hBn
  have hvv : beToNat 256 (natToBe 256 32 V) = V :=
    beToNat_natToBe_of_lt 256 (by norm_num) 32 V (by norm_num at hV ⊢; omega)
  have hww : beToNat 16 (natToBe 16 64 W) = W :=
    beToNat_natToBe_of_lt 16 (by norm_num) 64 W (by norm_num at hW ⊢; omega)
  have hne : (natToBe 256 32 V).isEmpty = false := natToBe_isEmpty _ _ _ (by norm_num)
  have hnw : (natToBe 16 64 W).isEmpty = false := natToBe_isEmpty _ _ _ (by norm_num)
  refine ⟨?_, ?_, ?_, ?_⟩
  · simp [createErc20TransferEvent, listIdx, toChecksumAddress, Bind.bind,
      Except.bind, eA, eB, hA, hB, hne, hvv]
  · simp [createErc20TransferEvent, listIdx, toChecksumAddress, Bind.bind,
      Except.bind, eA, eB, hA, hB]
  · simp [transformErc20Transfer, eAn, eBn, hnw, hww]
  · simp [transformErc20Transfer, eAn, eBn]

/-- Witness for C1: the round-trip theorem applied at concrete
addresses and at the value `2 ^ 70 + 3`, which exceeds 64-bit range. -/
theorem erc20_transfer_decode_roundtrip_witness :
    (List.replicate 20 7 : List Nat).length = 20
    ∧ (2 ^ 70 + 3 : Nat) < 2 ^ 256
    ∧ Erc20RoundtripProp (List.replicate 12 0) (List.replicate 12 0)
        (List.replicate 20 7) (List.replicate 20 9) (2 ^ 70 + 3)
        (List.replicate 24 0) (List.replicate 24 0)
        (List.replicate 40 5) (List.replicate 40 6) (2 ^ 70 + 3)
        1 2 3 4 5 6 "t" ⟨"TOK", "0xabc"⟩ :=
  ⟨by decide, by decide,
    erc20_transfer_decode_roundtrip _ _ _ _ (by decide) (by decide)
      _ (by decide) _ _ _ _ (by decide) (by decide) _ (by decide)
      1 2 3 4 5 6 "t" ⟨"TOK", "0xabc"⟩⟩

/-! ## Claim C2

The batch path has no `DecodeError` result and does not skip a
Transfer-signature log with missing topics: `_transform_erc20_transfer`
substitutes the placeholder address `'0x0'` for each missing topic and,
as long as the log carries a truthy timestamp, the log is counted into
every aggregate (a falsy timestamp instead aborts the whole batch with
a `TypeError` — see the transformer's definition).  The live path
raises inside `try`, and `_handle_log_event` catches, logs and drops
the log.
-/

/-- A Transfer-signature log with only one topic (fewer than the three
a Transfer needs), empty data and a truthy timestamp: the concrete
offending input. -/
def shortTransferEvt : RawEvt :=
  { topics := [erc20TransferSigHex], data := [], blockNumber := 0
    logIndex := 0, timestamp := 3600 }

/-- Counterexample to C2: the malformed log is NOT skipped from the
batch aggregates (the claim requires the transfer count over just this
log to be 0; it is 1), its placeholder addresses enter the
address aggregates, and no error result is produced anywhere — the
transformer returns a normal result. -/
theorem short_transfer_log_included_cex :
    (transformErc20Events [shortTransferEvt]).map (fun o => o.totalTransfers)
      = Except.ok 1
    ∧ (transformErc20Events [shortTransferEvt]).map
        (fun o => o.events.map (fun t => t.fromAddress)) = Except.ok [[0]]
    ∧ (transformErc20Events [shortTransferEvt]).map (fun o => o.uniqueAddresses)
      = Except.ok 1 := by
  refine ⟨?_, ?_, ?_⟩ <;> decide

/-- The behavior C2 amends to: on a one-topic Transfer-signature log
with a truthy timestamp, the batch transformer raises nothing,
substitutes `'0x0'` (modelled `[0]`) for both addresses, and counts the
log into the aggregates, while the live path catches the decoder's
IndexError, logs it, publishes nothing and continues. -/
def ShortTransferLogProp (e : RawEvt) (log : RawLogB) (c : ContractB)
    (n : String) (ts : Nat) : Prop :=
  ((transformErc20Events [e]).map (fun o => o.totalTransfers) = Except.ok 1
    ∧ (transformErc20Events [e]).map (fun o => o.events) =
        Except.ok
          [{ blockNumber := e.blockNumber, logIndex := e.logIndex
             fromAddress := [0], toAddress := [0]
             valueHexDigits := e.data
             value := if e.data.isEmpty then 0 else beToNat 16 e.data
             timestamp := some e.timestamp }])
  ∧ handleLogEvent log c n ts = (none, ["list index out of range"])

/-- C2 (amended): a Transfer-signature log with a single topic and a
truthy timestamp is not skipped by the batch transformer — it is
decoded with placeholder addresses and included in all aggregates, with
no error signalled — whereas the live path drops exactly that log,
records the caught exception in the log (observable), and leaves
processing of other logs unaffected (the handler returns normally). -/
theorem short_transfer_log_amended
    (e : RawEvt) (h1 : e.topics = [erc20TransferSigHex])
    (h3 : e.timestamp ≠ 0)
    (log : RawLogB) (h2 : log.topics = [erc20TransferSig])
    (c : ContractB) (n : String) (ts : Nat) :
    ShortTransferLogProp e log c n ts := by
  refine ⟨⟨?_, ?_⟩, ?_⟩
  · simp [transformErc20Events, erc20Loop, erc20Step, isErc20Transfer, h1, h3,
      transformErc20Transfer, summaryStep, emptyTransferSummary, Except.map]
  · simp [transformErc20Events, erc20Loop, erc20Step, isErc20Transfer, h1, h3,
      transformErc20Transfer, summaryStep, emptyTransferSummary, Except.map]
  · simp [handleLogEvent, decodeLogEvent, createErc20TransferEvent, listIdx,
      h2, Bind.bind, Except.bind]

/-- Witness for the amended C2 at the concrete one-topic inputs. -/
theorem short_transfer_log_amended_witness :
    shortTransferEvt.topics = [erc20TransferSigHex]
    ∧ shortTransferEvt.timestamp ≠ 0
    ∧ (RawLogB.mk [erc20TransferSig] [] 0 "t" 0).topics = [erc20TransferSig]
    ∧ ShortTransferLogProp shortTransferEvt (RawLogB.mk [erc20TransferSig] [] 0 "t" 0)
        ⟨"TOK", "0xabc"⟩ "Transfer" 0 :=
  ⟨rfl, by decide, rfl,
    short_transfer_log_amended shortTransferEvt rfl (by decide)
      (RawLogB.mk [erc20TransferSig] [] 0 "t" 0) rfl ⟨"TOK", "0xabc"⟩ "Transfer" 0⟩

/-! ## Claim C3

The source fills every protocol-specific Uniswap field with the literal
placeholder `0` (or `"0x0"`) — marked "Would decode from data" — rather
than an explicit undecoded marker.  The spec flags this as a defect, so
the claim is recorded as a code bug; the theorem evaluates what the code
does.
-/

/-- The zero-placeholder shape the Uniswap decoders always produce:
every amount, price, liquidity, tick, currency, fee and hooks field is
the zero-like placeholder of the source, never an undecoded marker. -/
def UniswapZeroFilledProp (sw : UniswapSwapEventB)
    (ml : UniswapModifyLiquidityEventB) (ini : UniswapInitEventB) : Prop :=
  (sw.amount0 = 0 ∧ sw.amount1 = 0 ∧ sw.sqrtPriceX96 = 0 ∧ sw.liquidity = 0
    ∧ sw.tick = 0)
  ∧ (ml.tickLower = 0 ∧ ml.tickUpper = 0 ∧ ml.liquidityDelta = 0)
  ∧ (ini.currency0 = [0] ∧ ini.currency1 = [0] ∧ ini.fee = 0
    ∧ ini.tickSpacing = 0 ∧ ini.hooks = [0])

/-- C3 (evaluating the code at the failing inputs): whatever the log —
in particular whatever its data payload holds — every successfully
created Uniswap Swap/ModifyLiquidity event carries literal zeros in its
protocol-specific numeric fields, and the Init event carries
zero-like placeholders in currencies, fee, tick spacing and hooks.
No "undecoded" marker exists in the code. -/
theorem uniswap_fields_zero_filled
    (log : RawLogB) (c : ContractB) (ts : Nat)
    (sw : UniswapSwapEventB)
    (hsw : createUniswapSwapEvent log c ts = Except.ok sw)
    (ml : UniswapModifyLiquidityEventB)
    (hml : createUniswapModifyLiquidityEvent log c ts = Except.ok ml) :
    UniswapZeroFilledProp sw ml (createUniswapInitEvent log c ts) := by
  refine ⟨?_, ?_, ?_⟩
  · unfold createUniswapSwapEvent at hsw
    simp only [Bind.bind, Except.bind] at hsw
    repeat' split at hsw
    all_goals first
      | (simp at hsw; done)
      | (injection hsw with h; subst h; simp)
  · unfold createUniswapModifyLiquidityEvent at hml
    simp only [Bind.bind, Except.bind] at hml
    repeat' split at hml
    all_goals first
      | (simp at hml; done)
      | (injection hml with h; subst h; simp)
  · simp [createUniswapInitEvent]

/-- Failing input for C3: a Swap log whose data payload encodes the
nonzero value 123 (and likewise serves the ModifyLiquidity decoder). -/
def uniswapZeroLog : RawLogB :=
  { topics := [uniswapSwapSig, natToBe 256 32 0xabc,
               List.replicate 12 0 ++ List.replicate 20 2]
    data := natToBe 256 32 123
    blockNumber := 1, txHash := "t", logIndex := 0 }

/-- The swap event the code produces on `uniswapZeroLog`: all numeric
fields are zero although the data payload is nonzero. -/
def uniswapZeroSwapEvt : UniswapSwapEventB :=
  { contractAddress := "0xdef", blockNumber := 1, txHash := "t", logIndex := 0
    timestamp := 7, poolId := natToBe 256 32 0xabc
    sender := List.replicate 20 2
    amount0 := 0, amount1 := 0, sqrtPriceX96 := 0, liquidity := 0, tick := 0 }

/-- The modify-liquidity event the code produces on `uniswapZeroLog`. -/
def uniswapZeroModifyEvt : UniswapModifyLiquidityEventB :=
  { contractAddress := "0xdef", blockNumber := 1, txHash := "t", logIndex := 0
    timestamp := 7, poolId := natToBe 256 32 0xabc
    sender := List.replicate 20 2
    tickLower := 0, tickUpper := 0, liquidityDelta := 0 }

/-- Witness for C3 at the concrete failing input. -/
theorem uniswap_fields_zero_filled_witness :
    createUniswapSwapEvent uniswapZeroLog ⟨"U", "0xdef"⟩ 7
      = Except.ok uniswapZeroSwapEvt
    ∧ createUniswapModifyLiquidityEvent uniswapZeroLog ⟨"U", "0xdef"⟩ 7
      = Except.ok uniswapZeroModifyEvt
    ∧ UniswapZeroFilledProp uniswapZeroSwapEvt uniswapZeroModifyEvt
        (createUniswapInitEvent uniswapZeroLog ⟨"U", "0xdef"⟩ 7) :=
  ⟨rfl, rfl,
    uniswap_fields_zero_filled uniswapZeroLog ⟨"U", "0xdef"⟩ 7
      uniswapZeroSwapEvt rfl uniswapZeroModifyEvt rfl⟩

/-! ## EventBus lemmas -/

/-- The handler a tagged method of a subscriber registers as. -/
def mkHandler (sid : Nat) (m : MethodInfo) : Handler := ⟨sid, m⟩

theorem register_syncSubs_go (sid : Nat) (l : List MethodInfo) (bus : EventBus) :
    (l.foldl
      (fun b m =>
        if m.isAsync then { b with asyncSubs := b.asyncSubs ++ [⟨sid, m⟩] }
        else { b with syncSubs := b.syncSubs ++ [⟨sid, m⟩] })
      bus).syncSubs
    = bus.syncSubs ++ (l.filter (fun m => !m.isAsync)).map (mkHandler sid) := by
  induction l generalizing bus with
  | nil => simp
  | cons m rest ih =>
    cases hm : m.isAsync <;> simp [hm, ih, mkHandler]

theorem register_asyncSubs_go (sid : Nat) (l : List MethodInfo) (bus : EventBus) :
    (l.foldl
      (fun b m =>
        if m.isAsync then { b with asyncSubs := b.asyncSubs ++ [⟨sid, m⟩] }
        else { b with syncSubs := b.syncSubs ++ [⟨sid, m⟩] })
      bus).asyncSubs
    = bus.asyncSubs ++ (l.filter (fun m => m.isAsync)).map (mkHandler sid) := by
  induction l generalizing bus with
  | nil => simp
  | cons m rest ih =>
    cases hm : m.isAsync <;> simp [hm, ih, mkHandler]

theorem register_syncSubs (bus : EventBus) (s : Subscriber) :
    (register bus s).syncSubs
    = bus.syncSubs ++ (s.methods.filter (fun m => !m.isAsync)).map (mkHandler s.subId) :=
  register_syncSubs_go s.subId s.methods bus

theorem register_asyncSubs (bus : EventBus) (s : Subscriber) :
    (register bus s).asyncSubs
    = bus.asyncSubs ++ (s.methods.filter (fun m => m.isAsync)).map (mkHandler s.subId) :=
  register_asyncSubs_go s.subId s.methods bus

theorem registerAll_syncSubs (subs : List Subscriber) :
    (registerAll subs).syncSubs
    = subs.flatMap
        (fun s => (s.methods.filter (fun m => !m.isAsync)).map (mkHandler s.subId)) := by
  suffices h : ∀ (bus : EventBus),
      (subs.foldl register bus).syncSubs
      = bus.syncSubs ++ subs.flatMap
          (fun s => (s.methods.filter (fun m => !m.isAsync)).map (mkHandler s.subId)) by
    simpa [registerAll, emptyEventBus] using h emptyEventBus
  induction subs with
  | nil => simp
  | cons s rest ih =>
    intro bus
    simp [List.foldl_cons, ih, register_syncSubs]

theorem registerAll_asyncSubs (subs : List Subscriber) :
    (registerAll subs).asyncSubs
    = subs.flatMap
        (fun s => (s.methods.filter (fun m => m.isAsync)).map (mkHandler s.subId)) := by
  suffices h : ∀ (bus : EventBus),
      (subs.foldl register bus).asyncSubs
      = bus.asyncSubs ++ subs.flatMap
          (fun s => (s.methods.filter (fun m => m.isAsync)).map (mkHandler s.subId)) by
    simpa [registerAll, emptyEventBus] using h emptyEventBus
  induction subs with
  | nil => simp
  | cons s rest ih =>
    intro bus
    simp [List.foldl_cons, ih, register_asyncSubs]

theorem foldl_invokeCaught_fst (hs : List Handler) (acc : List Handler × List Nat) :
    (hs.foldl invokeCaught acc).1 = acc.1 ++ hs := by
  induction hs generalizing acc with
  | nil => simp
  | cons h rest ih => simp [invokeCaught, ih]

theorem foldl_invokeCaught_snd (hs : List Handler) (acc : List Handler × List Nat) :
    (hs.foldl invokeCaught acc).2
    = acc.2 ++ (hs.filter (fun h => h.m.fails)).map (fun h => h.m.methodId) := by
  induction hs generalizing acc with
  | nil => simp
  | cons h rest ih =>
    cases hf : h.m.fails <;> simp [invokeCaught, ih, hf]

theorem post_fst (bus : EventBus) (e : BusEvent) :
    (post bus e).1 = bus.syncSubs.filter (fun h => h.m.kind = e.kind) := by
  simp [post, foldl_invokeCaught_fst]

theorem post_snd (bus : EventBus) (e : BusEvent) :
    (post bus e).2
    = ((bus.syncSubs.filter (fun h => h.m.kind = e.kind)).filter
        (fun h => h.m.fails)).map (fun h => h.m.methodId) := by
  simp [post, foldl_invokeCaught_snd]

theorem postAsync_fst (bus : EventBus) (e : BusEvent) :
    (postAsync bus e).1
    = bus.syncSubs.filter (fun h => h.m.kind = e.kind)
      ++ bus.asyncSubs.filter (fun h => h.m.kind = e.kind) := by
  simp [postAsync, foldl_invokeCaught_fst]

/-- The async-path error log holds exactly the failing handlers of the
synchronous group: concurrent handlers' exceptions are swallowed by the
discarded gather result and never logged. -/
theorem postAsync_snd (bus : EventBus) (e : BusEvent) :
    (postAsync bus e).2
    = ((bus.syncSubs.filter (fun h => h.m.kind = e.kind)).filter
        (fun h => h.m.fails)).map (fun h => h.m.methodId) := by
  simp [postAsync, foldl_invokeCaught_snd]

/-! ## Claim C4 -/

/-- C4: asynchronous publish fan-out.  For any sequence of registered
subscribers and any event, `post_async` produces exactly one invocation
per matching synchronous handler plus one per matching concurrent
handler — the synchronous group first, in registration order, then every
concurrent handler (each scheduled as an independent task and awaited;
the model returns only the completed trace, one entry per handler, so
the call accounts for every one of the N+M invocations).  The total
invocation count is N + M. -/
theorem post_async_fanout (subs : List Subscriber) (e : BusEvent) :
    (postAsync (registerAll subs) e).1
      = subs.flatMap (fun s =>
          (s.methods.filter
            (fun m => decide (m.kind = e.kind) && !m.isAsync)).map (mkHandler s.subId))
        ++ subs.flatMap (fun s =>
          (s.methods.filter
            (fun m => decide (m.kind = e.kind) && m.isAsync)).map (mkHandler s.subId))
    ∧ (postAsync (registerAll subs) e).1.length
      = (subs.map (fun s =>
          (s.methods.filter
            (fun m => decide (m.kind = e.kind) && !m.isAsync)).length)).sum
        + (subs.map (fun s =>
          (s.methods.filter
            (fun m => decide (m.kind = e.kind) && m.isAsync)).length)).sum := by
  have h1 : (postAsync (registerAll subs) e).1
      = subs.flatMap (fun s =>
          (s.methods.filter
            (fun m => decide (m.kind = e.kind) && !m.isAsync)).map (mkHandler s.subId))
        ++ subs.flatMap (fun s =>
          (s.methods.filter
            (fun m => decide (m.kind = e.kind) && m.isAsync)).map (mkHandler s.subId)) := by
    rw [postAsync_fst, registerAll_syncSubs, registerAll_asyncSubs,
      List.filter_flatMap, List.filter_flatMap]
    simp [List.filter_map, List.filter_filter, Function.comp, mkHandler]
  refine ⟨h1, ?_⟩
  rw [h1]
  simp [List.length_append, List.length_flatMap, Function.comp_def]

/-! ## Claim C5

Fault isolation holds on both publish paths, but the claim's "caught
and logged" is only half true: `post` and the synchronous group of
`post_async` log every caught handler exception, while the concurrent
group's exceptions are captured by `gather(..., return_exceptions=True)`
whose result the source discards — caught, isolating siblings, but
never logged.
-/

/-- A failing concurrent handler for kind 1. -/
def asyncFailHandler : Handler := ⟨0, ⟨0, 1, true, true⟩⟩

/-- A bus whose only handler is the failing concurrent one. -/
def asyncFailBus : EventBus := ⟨[], [asyncFailHandler]⟩

/-- Counterexample to C5: publishing asynchronously on a bus whose only
matching handler is a throwing concurrent handler invokes it (its
`fails` flag is true, so the invocation throws), yet the error log of
the publish call stays empty — the exception is caught by the gather
but never logged, contradicting the claim's "caught and logged" for the
asynchronous path. -/
theorem async_failure_not_logged_cex :
    (postAsync asyncFailBus (BusEvent.mk 1)).1 = [asyncFailHandler]
    ∧ asyncFailHandler.m.fails = true
    ∧ (postAsync asyncFailBus (BusEvent.mk 1)).2 = [] := by
  refine ⟨?_, ?_, ?_⟩ <;> decide

/-- The isolation-and-logging behavior C5 amends to: every matching
handler is invoked on both paths regardless of any `fails` flag, a
failing synchronous handler is logged on both paths, and the
asynchronous path's error log consists exactly of the synchronous
group's failures — a concurrent handler's failure is caught (it cancels
and blocks nothing) but never logged. -/
def FaultIsolationProp (bus : EventBus) (e : BusEvent) (h : Handler) : Prop :=
  (h ∈ bus.syncSubs → h.m.kind = e.kind →
    h ∈ (post bus e).1 ∧ h ∈ (postAsync bus e).1)
  ∧ (h ∈ bus.asyncSubs → h.m.kind = e.kind → h ∈ (postAsync bus e).1)
  ∧ (h ∈ bus.syncSubs → h.m.kind = e.kind → h.m.fails = true →
    h.m.methodId ∈ (post bus e).2 ∧ h.m.methodId ∈ (postAsync bus e).2)
  ∧ ((postAsync bus e).2
    = ((bus.syncSubs.filter (fun h => h.m.kind = e.kind)).filter
        (fun h => h.m.fails)).map (fun h => h.m.methodId))

/-- C5 (amended): handler fault isolation on both publish paths — every
matching registered handler is invoked unconditionally on any handler's
`fails` flag, including its own and that of handlers before it, and the
registries are never mutated by a publish, so later publish calls see
the same handlers.  A failing synchronous handler's error is caught and
logged on both paths; a failing concurrent handler is caught without
cancelling or blocking its siblings, but its exception is discarded
unlogged (the asynchronous error log is exactly the synchronous
group's failures). -/
theorem handler_fault_isolation_amended (bus : EventBus) (e : BusEvent)
    (h : Handler) : FaultIsolationProp bus e h := by
  refine ⟨fun hmem hk => ⟨?_, ?_⟩, fun hmem hk => ?_, fun hmem hk hf => ⟨?_, ?_⟩,
    postAsync_snd bus e⟩
  · rw [post_fst]
    exact List.mem_filter.mpr ⟨hmem, by simp [hk]⟩
  · rw [postAsync_fst]
    exact List.mem_append.mpr (Or.inl (List.mem_filter.mpr ⟨hmem, by simp [hk]⟩))
  · rw [postAsync_fst]
    exact List.mem_append.mpr (Or.inr (List.mem_filter.mpr ⟨hmem, by simp [hk]⟩))
  · rw [post_snd]
    exact List.mem_map.mpr
      ⟨h, List.mem_filter.mpr ⟨List.mem_filter.mpr ⟨hmem, by simp [hk]⟩, by simp [hf]⟩,
        rfl⟩
  · rw [postAsync_snd]
    exact List.mem_map.mpr
      ⟨h, List.mem_filter.mpr ⟨List.mem_filter.mpr ⟨hmem, by simp [hk]⟩, by simp [hf]⟩,
        rfl⟩

/-- A failing synchronous handler registered before `isoOkHandler`. -/
def isoFailHandler : Handler := ⟨0, ⟨0, 1, false, true⟩⟩

/-- A succeeding synchronous handler registered after the failing one. -/
def isoOkHandler : Handler := ⟨0, ⟨1, 1, false, false⟩⟩

/-- A concurrent handler on the same bus. -/
def isoAsyncHandler : Handler := ⟨0, ⟨2, 1, true, false⟩⟩

/-- A bus whose first synchronous handler fails. -/
def isoBus : EventBus := ⟨[isoFailHandler, isoOkHandler], [isoAsyncHandler]⟩

/-- Witness for the amended C5: on a bus whose first handler throws,
the later handler is still invoked on both paths. -/
theorem handler_fault_isolation_amended_witness :
    isoOkHandler ∈ isoBus.syncSubs
    ∧ isoOkHandler.m.kind = (BusEvent.mk 1).kind
    ∧ (isoOkHandler ∈ (post isoBus (BusEvent.mk 1)).1
      ∧ isoOkHandler ∈ (postAsync isoBus (BusEvent.mk 1)).1) :=
  ⟨by decide, rfl,
    (handler_fault_isolation_amended isoBus (BusEvent.mk 1) isoOkHandler).1
      (by decide) rfl⟩

/-! ## Claim C6 -/

/-- C6: publish dispatches by the exact runtime kind.  The synchronous
invocation list is precisely the registry filtered to the event's exact
kind, in registration order; a handler registered under any other kind —
in particular the base kind of a subclass-kind event, since distinct
runtime types are distinct dispatch keys — is never invoked; and with
zero matching subscribers the publish is a no-op producing no
invocations and no error. -/
theorem dispatch_exact_kind (bus : EventBus) (e : BusEvent) :
    (post bus e).1 = bus.syncSubs.filter (fun h => h.m.kind = e.kind)
    ∧ (∀ h : Handler, h ∈ (post bus e).1 → h.m.kind = e.kind)
    ∧ (∀ h : Handler, h ∈ bus.syncSubs → h.m.kind ≠ e.kind → h ∉ (post bus e).1)
    ∧ ((∀ h ∈ bus.syncSubs, h.m.kind ≠ e.kind) → post bus e = ([], [])) := by
  refine ⟨post_fst bus e, ?_, ?_, ?_⟩
  · intro h hmem
    rw [post_fst] at hmem
    have := (List.mem_filter.mp hmem).2
    simpa using this
  · intro h hmem hne hcon
    rw [post_fst] at hcon
    have := (List.mem_filter.mp hcon).2
    exact hne (by simpa using this)
  · intro hall
    have hnil : bus.syncSubs.filter (fun h => h.m.kind = e.kind) = [] := by
      rw [List.filter_eq_nil_iff]
      intro h hm
      simp [hall h hm]
    unfold post
    rw [hnil]
    rfl

/-- A handler registered for the base kind `0`. -/
def baseKindHandler : Handler := ⟨0, ⟨0, 0, false, false⟩⟩

/-- A bus with only the base-kind handler. -/
def baseKindBus : EventBus := ⟨[baseKindHandler], []⟩

/-- Witness for C6: publishing a subclass-kind event (kind `1`) on a
bus holding only a base-kind handler (kind `0`) invokes nothing and
raises nothing. -/
theorem dispatch_exact_kind_witness :
    baseKindHandler ∈ baseKindBus.syncSubs
    ∧ baseKindHandler.m.kind ≠ (BusEvent.mk 1).kind
    ∧ baseKindHandler ∉ (post baseKindBus (BusEvent.mk 1)).1
    ∧ post baseKindBus (BusEvent.mk 1) = ([], []) :=
  ⟨by decide, by decide,
    (dispatch_exact_kind baseKindBus (BusEvent.mk 1)).2.2.1 baseKindHandler
      (by decide) (by decide),
    (dispatch_exact_kind baseKindBus (BusEvent.mk 1)).2.2.2 (by decide)⟩

/-! ## Claim C7 -/

theorem unregister_go (sid : Nat) (l : List MethodInfo) (bus : EventBus) :
    (l.foldl
      (fun b m =>
        { syncSubs := b.syncSubs.erase ⟨sid, m⟩
          asyncSubs := b.asyncSubs.erase ⟨sid, m⟩ })
      bus)
    = { syncSubs := l.foldl (fun acc m => acc.erase ⟨sid, m⟩) bus.syncSubs
        asyncSubs := l.foldl (fun acc m => acc.erase ⟨sid, m⟩) bus.asyncSubs } := by
  induction l generalizing bus with
  | nil => rfl
  | cons m rest ih => simp [List.foldl_cons, ih]

theorem foldl_erase_of_not_mem (sid : Nat) (l : List MethodInfo) (acc : List Handler)
    (h : ∀ m ∈ l, (⟨sid, m⟩ : Handler) ∉ acc) :
    l.foldl (fun acc m => acc.erase ⟨sid, m⟩) acc = acc := by
  induction l generalizing acc with
  | nil => rfl
  | cons m rest ih =>
    simp only [List.foldl_cons]
    rw [List.erase_of_not_mem (h m (by simp))]
    exact ih acc (fun m' hm' => h m' (by simp [hm']))

theorem foldl_erase_append (sid : Nat) (p : MethodInfo → Bool)
    (l : List MethodInfo) (pre : List Handler) (hnod : l.Nodup)
    (hpre : ∀ m ∈ l, (⟨sid, m⟩ : Handler) ∉ pre) :
    l.foldl (fun acc m => acc.erase ⟨sid, m⟩)
      (pre ++ (l.filter p).map (mkHandler sid)) = pre := by
  induction l generalizing pre with
  | nil => simp
  | cons m rest ih =>
    have hmrest : m ∉ rest := (List.nodup_cons.mp hnod).1
    have hnodr : rest.Nodup := (List.nodup_cons.mp hnod).2
    simp only [List.foldl_cons]
    by_cases hp : p m
    · rw [List.filter_cons_of_pos hp, List.map_cons]
      rw [List.erase_append_right _ (hpre m (by simp))]
      have herase : (mkHandler sid m :: (rest.filter p).map (mkHandler sid)).erase
          (⟨sid, m⟩ : Handler) = (rest.filter p).map (mkHandler sid) :=
        List.erase_cons_head (mkHandler sid m) _
      rw [herase]
      exact ih pre hnodr (fun m' hm' => hpre m' (by simp [hm']))
    · rw [List.filter_cons_of_neg hp]
      have hx : (⟨sid, m⟩ : Handler) ∉ (rest.filter p).map (mkHandler sid) := by
        intro hmem
        obtain ⟨m', hm', heq⟩ := List.mem_map.mp hmem
        have hmm : m' = m := by
          simpa [mkHandler] using heq
        exact hmrest (hmm ▸ List.mem_of_mem_filter hm')
      rw [List.erase_of_not_mem (by
        intro hmem
        rcases List.mem_append.mp hmem with h1 | h2
        · exact hpre m (by simp) h1
        · exact hx h2)]
      exact ih pre hnodr (fun m' hm' => hpre m' (by simp [hm']))

/-- The handler-injection of a fixed subscriber is injective. -/
theorem mkHandler_injective (sid : Nat) : Function.Injective (mkHandler sid) := by
  intro a b h
  simpa [mkHandler] using h

/-- A subscriber with one synchronous tagged method. -/
def dupSubscriber : Subscriber := ⟨0, [⟨0, 0, false, false⟩]⟩

/-- Counterexample to C7: registering the same subscriber twice without
an intervening unregister leaves its (subscriber, method, kind) triple
in the synchronous registry twice — `register` appends unconditionally,
so the uniqueness invariant the claim states does not hold. -/
theorem register_twice_duplicates_cex :
    ((register (register emptyEventBus dupSubscriber) dupSubscriber).syncSubs.count
      ⟨0, ⟨0, 0, false, false⟩⟩) = 2 := by decide

/-- The registration behavior C7 amends to: unregister after register
restores the previous registries exactly; unregister of a
never-registered subscriber is a no-op; and a double register without
intervening unregister leaves each synchronous triple in the registry
twice. -/
def RegistrationProp (bus : EventBus) (s : Subscriber) : Prop :=
  unregister (register bus s) s = bus
  ∧ unregister bus s = bus
  ∧ ∀ m ∈ s.methods, m.isAsync = false →
      ((register (register bus s) s).syncSubs.count ⟨s.subId, m⟩) = 2

/-- C7 (amended): for a subscriber with distinct tagged methods none of
which is already registered, `register` then `unregister` restores the
bus exactly (so re-registration afterwards is a fresh registration),
`unregister` without prior registration is a no-op, and double
registration creates duplicate entries (count 2) instead of preserving
the uniqueness invariant the claim stated. -/
theorem register_unregister_amended (bus : EventBus) (s : Subscriber)
    (hnod : s.methods.Nodup)
    (hfresh : ∀ m ∈ s.methods,
      (⟨s.subId, m⟩ : Handler) ∉ bus.syncSubs
      ∧ (⟨s.subId, m⟩ : Handler) ∉ bus.asyncSubs) :
    RegistrationProp bus s := by
  refine ⟨?_, ?_, ?_⟩
  · show (s.methods.foldl _ (register bus s)) = bus
    rw [unregister_go]
    rw [register_syncSubs, register_asyncSubs]
    rw [foldl_erase_append s.subId _ s.methods bus.syncSubs hnod
      (fun m hm => (hfresh m hm).1)]
    rw [foldl_erase_append s.subId _ s.methods bus.asyncSubs hnod
      (fun m hm => (hfresh m hm).2)]
  · show (s.methods.foldl _ bus) = bus
    rw [unregister_go]
    rw [foldl_erase_of_not_mem s.subId s.methods bus.syncSubs
      (fun m hm => (hfresh m hm).1)]
    rw [foldl_erase_of_not_mem s.subId s.methods bus.asyncSubs
      (fun m hm => (hfresh m hm).2)]
  · intro m hm hsync
    rw [register_syncSubs, register_syncSubs]
    have hzero : bus.syncSubs.count (⟨s.subId, m⟩ : Handler) = 0 :=
      List.count_eq_zero.mpr (hfresh m hm).1
    have hone : ((s.methods.filter (fun m => !m.isAsync)).map
        (mkHandler s.subId)).count (⟨s.subId, m⟩ : Handler) = 1 := by
      have hmf : m ∈ s.methods.filter (fun m => !m.isAsync) :=
        List.mem_filter.mpr ⟨hm, by simp [hsync]⟩
      have hnodf : (s.methods.filter (fun m => !m.isAsync)).Nodup :=
        hnod.filter _
      have := List.count_map_of_injective
        (s.methods.filter (fun m => !m.isAsync)) (mkHandler s.subId)
        (mkHandler_injective s.subId) m
      rw [show (⟨s.subId, m⟩ : Handler) = mkHandler s.subId m from rfl, this]
      exact List.count_eq_one_of_mem hnodf hmf
    simp [List.count_append, hzero, hone]

/-- A subscriber with one synchronous and one concurrent method. -/
def freshSubscriber : Subscriber := ⟨0, [⟨0, 0, false, false⟩, ⟨1, 0, true, false⟩]⟩

/-- Witness for the amended C7 on the empty bus. -/
theorem register_unregister_amended_witness :
    freshSubscriber.methods.Nodup
    ∧ (∀ m ∈ freshSubscriber.methods,
        (⟨freshSubscriber.subId, m⟩ : Handler) ∉ emptyEventBus.syncSubs
        ∧ (⟨freshSubscriber.subId, m⟩ : Handler) ∉ emptyEventBus.asyncSubs)
    ∧ RegistrationProp emptyEventBus freshSubscriber :=
  ⟨by decide, by decide,
    register_unregister_amended emptyEventBus freshSubscriber (by decide) (by decide)⟩

/-! ## Claim C9 -/

/-- The banding behavior C9 asserts: each status holds exactly on its
band, the boundary ratios 1/2, 4/5, 19/20 (utilization exactly 50%,
80%, 95%) classify as moderate, high, critical, and the full-block flag
is set exactly above 95%. -/
def GasBandingProp (b : RawBlockData) : Prop :=
  ((transformBlockData b).utilizationStatus = "low" ↔ gasUtilization b < 50)
  ∧ ((transformBlockData b).utilizationStatus = "moderate"
      ↔ 50 ≤ gasUtilization b ∧ gasUtilization b < 80)
  ∧ ((transformBlockData b).utilizationStatus = "high"
      ↔ 80 ≤ gasUtilization b ∧ gasUtilization b < 95)
  ∧ ((transformBlockData b).utilizationStatus = "critical"
      ↔ 95 ≤ gasUtilization b)
  ∧ ((transformBlockData b).isFullBlock = true ↔ 95 < gasUtilization b)
  ∧ (2 * b.gasUsed = b.gasLimit
      → (transformBlockData b).utilizationStatus = "moderate")
  ∧ (5 * b.gasUsed = 4 * b.gasLimit
      → (transformBlockData b).utilizationStatus = "high")
  ∧ (20 * b.gasUsed = 19 * b.gasLimit
      → (transformBlockData b).utilizationStatus = "critical")

/-- C9: gas utilization banding.  With utilization computed as
`gasUsed / gasLimit` as a percentage, the status is low below 50%,
moderate on [50%, 80%), high on [80%, 95%) and critical from 95% on
(each boundary belongs to the upper band), and the full-block flag is
set exactly when utilization strictly exceeds 95%. -/
theorem gas_utilization_banding (b : RawBlockData) (hpos : 0 < b.gasLimit) :
    GasBandingProp b := by
  have hL : (0 : ℚ) < (b.gasLimit : ℚ) := by exact_mod_cast hpos
  unfold GasBandingProp transformBlockData getUtilizationStatus
  set u := gasUtilization b with hu
  dsimp only
  refine ⟨?_, ?_, ?_, ?_, ?_, ?_, ?_, ?_⟩
  · split_ifs with h1 h2 h3 <;> simp_all <;> linarith
  · split_ifs with h1 h2 h3 <;> simp_all <;> intro h <;> linarith
  · split_ifs with h1 h2 h3 <;> simp_all <;> intro h <;> linarith
  · split_ifs with h1 h2 h3 <;> simp_all <;> linarith
  · simp
  · intro h
    have hq : (b.gasLimit : ℚ) = 2 * (b.gasUsed : ℚ) := by exact_mod_cast h.symm
    have hgu : (b.gasUsed : ℚ) ≠ 0 := by
      intro h0
      rw [h0] at hq
      simp at hq
      exact absurd hq (by linarith)
    have hu50 : u = 50 := by
      rw [hu]
      unfold gasUtilization
      rw [hq]
      field_simp
      ring
    rw [hu50]
    norm_num
  · intro h
    have hq : 5 * (b.gasUsed : ℚ) = 4 * (b.gasLimit : ℚ) := by exact_mod_cast h
    have hu80 : u = 80 := by
      rw [hu]
      unfold gasUtilization
      have : (b.gasUsed : ℚ) = 4 * (b.gasLimit : ℚ) / 5 := by linarith
      rw [this]
      field_simp
      ring
    rw [hu80]
    norm_num
  · intro h
    have hq : 20 * (b.gasUsed : ℚ) = 19 * (b.gasLimit : ℚ) := by exact_mod_cast h
    have hu95 : u = 95 := by
      rw [hu]
      unfold gasUtilization
      have : (b.gasUsed : ℚ) = 19 * (b.gasLimit : ℚ) / 20 := by linarith
      rw [this]
      field_simp
      ring
    rw [hu95]
    norm_num

/-- Witness for C9 at a block with gas limit 100 and gas used 50. -/
theorem gas_utilization_banding_witness :
    0 < (RawBlockData.mk 50 100 3).gasLimit
    ∧ GasBandingProp (RawBlockData.mk 50 100 3) :=
  ⟨by decide, gas_utilization_banding (RawBlockData.mk 50 100 3) (by decide)⟩

/-! ## Claim C10 -/

theorem stopListening_logs (ws : Bool) (l : List ActiveFilterB) (acc : List String) :
    l.foldl
      (fun acc f =>
        if ws && f.uninstallFails then acc ++ [uninstallErrMsg f] else acc)
      acc
    = acc ++ (l.filter (fun f => ws && f.uninstallFails)).map uninstallErrMsg := by
  induction l generalizing acc with
  | nil => simp
  | cons f rest ih =>
    simp only [List.foldl_cons]
    by_cases hf : (ws && f.uninstallFails) = true
    · rw [if_pos hf, ih, List.filter_cons]
      simp [hf, List.append_assoc]
    · rw [if_neg hf, ih, List.filter_cons]
      simp [hf]

/-- C10: `stop_listening` is total (teardown failures are logged, never
raised — the log holds exactly one entry per filter whose node-side
uninstall fails), always leaves the active filter set empty, is
idempotent (a second call finds no filters, uninstalls nothing, logs
nothing), and is safe when listening was never started (the initial
state has no filters; the call logs nothing and changes nothing). -/
theorem stop_listening_idempotent (s : ListenerStateB) :
    ((stopListening s).1.activeFilters = [])
    ∧ (stopListening (stopListening s).1 = ((stopListening s).1, []))
    ∧ (∀ ws : Bool, stopListening (initListener ws) = (initListener ws, []))
    ∧ ((stopListening s).2
        = (s.activeFilters.filter
            (fun f => s.hasWs && f.uninstallFails)).map uninstallErrMsg) := by
  refine ⟨rfl, rfl, fun ws => rfl, ?_⟩
  show s.activeFilters.foldl
      (fun acc f =>
        if s.hasWs && f.uninstallFails then acc ++ [uninstallErrMsg f] else acc) []
    = _
  rw [stopListening_logs]
  simp

/-! ## Claim C8 -/

/-- The transformed records of a batch, in input order (the events that
pass `_is_erc20_transfer`, decoded). -/
def erc20Transformed (evs : List RawEvt) : List TransferRecord :=
  (evs.filter isErc20Transfer).map transformErc20Transfer

theorem erc20Loop_go (events : List RawEvt) (acc : List TransferRecord)
    (s : TransferSummaryState)
    (htime : ∀ e ∈ events, isErc20Transfer e = true → e.timestamp ≠ 0) :
    events.foldl erc20Step (Except.ok (acc, s))
    = Except.ok (acc ++ (events.filter isErc20Transfer).map transformErc20Transfer,
       ((events.filter isErc20Transfer).map transformErc20Transfer).foldl
         summaryStep s) := by
  induction events generalizing acc s with
  | nil => simp
  | cons e rest ih =>
    by_cases he : isErc20Transfer e = true
    · have ht : e.timestamp ≠ 0 := htime e (by simp) he
      have hsome : (transformErc20Transfer e).timestamp = some e.timestamp := by
        simp [transformErc20Transfer, ht]
      have hstep : erc20Step (Except.ok (acc, s)) e
          = Except.ok (acc ++ [transformErc20Transfer e],
              summaryStep s (transformErc20Transfer e)) := by
        simp [erc20Step, he, hsome]
      rw [List.foldl_cons, hstep,
        ih _ _ (fun e' he' hc => htime e' (by simp [he']) hc),
        List.filter_cons]
      simp [he]
    · have hstep : erc20Step (Except.ok (acc, s)) e = Except.ok (acc, s) := by
        simp [erc20Step, he]
      rw [List.foldl_cons, hstep,
        ih _ _ (fun e' he' hc => htime e' (by simp [he']) hc),
        List.filter_cons]
      simp [he]

theorem erc20Loop_ok (events : List RawEvt)
    (htime : ∀ e ∈ events, isErc20Transfer e = true → e.timestamp ≠ 0) :
    erc20Loop events
    = Except.ok (erc20Transformed events,
        (erc20Transformed events).foldl summaryStep emptyTransferSummary) := by
  unfold erc20Loop
  rw [erc20Loop_go events [] emptyTransferSummary htime]
  simp [erc20Transformed]

theorem foldl_summaryStep_totalTransfers (ts : List TransferRecord)
    (s : TransferSummaryState) :
    (ts.foldl summaryStep s).totalTransfers = s.totalTransfers + ts.length := by
  induction ts generalizing s with
  | nil => simp
  | cons t rest ih =>
    simp only [List.foldl_cons, List.length_cons]
    rw [ih]
    simp [summaryStep]
    omega

theorem foldl_summaryStep_totalVolume (ts : List TransferRecord)
    (s : TransferSummaryState) :
    (ts.foldl summaryStep s).totalVolume
    = (ts.map (fun t => t.value)).foldl decAdd s.totalVolume := by
  induction ts generalizing s with
  | nil => simp
  | cons t rest ih =>
    simp only [List.foldl_cons, List.map_cons]
    rw [ih]
    rfl

theorem foldl_summaryStep_uniqueSet (ts : List TransferRecord)
    (s : TransferSummaryState) :
    (ts.foldl summaryStep s).uniqueAddressSet
    = (ts.flatMap (fun t => [t.fromAddress, t.toAddress])).foldl setInsert
        s.uniqueAddressSet := by
  induction ts generalizing s with
  | nil => simp
  | cons t rest ih =>
    simp only [List.foldl_cons, List.flatMap_cons]
    rw [ih, List.foldl_append]
    rfl

theorem setInsert_nodup (s : List (List Nat)) (a : List Nat) (h : s.Nodup) :
    (setInsert s a).Nodup := by
  unfold setInsert
  split
  · exact h
  · rename_i ha
    simp [List.nodup_append, h, ha]

theorem setInsert_toFinset (s : List (List Nat)) (a : List Nat) :
    (setInsert s a).toFinset = insert a s.toFinset := by
  unfold setInsert
  split
  · rename_i ha
    rw [Finset.insert_eq_self.mpr (List.mem_toFinset.mpr ha)]
  · ext x
    simp [or_comm]

theorem foldl_setInsert (l : List (List Nat)) (s : List (List Nat))
    (h : s.Nodup) :
    (l.foldl setInsert s).Nodup
    ∧ (l.foldl setInsert s).toFinset = s.toFinset ∪ l.toFinset := by
  induction l generalizing s with
  | nil => simp [h]
  | cons a rest ih =>
    obtain ⟨h1, h2⟩ := ih (setInsert s a) (setInsert_nodup s a h)
    refine ⟨h1, ?_⟩
    rw [List.foldl_cons, h2, setInsert_toFinset]
    ext x
    simp

theorem foldl_setInsert_length (l : List (List Nat)) :
    (l.foldl setInsert []).length = l.toFinset.card := by
  obtain ⟨h1, h2⟩ := foldl_setInsert l [] (by simp)
  calc (l.foldl setInsert []).length
      = (l.foldl setInsert []).toFinset.card :=
        (List.toFinset_card_of_nodup h1).symm
    _ = l.toFinset.card := by rw [h2]; simp

/-- On a batch whose transfers all carry truthy timestamps, the
transformer succeeds and its result fields are the loop outputs. -/
theorem transformErc20Events_ok (evs : List RawEvt)
    (htime : ∀ e ∈ evs, isErc20Transfer e = true → e.timestamp ≠ 0) :
    transformErc20Events evs
    = Except.ok
      { events := erc20Transformed evs
        totalTransfers :=
          ((erc20Transformed evs).foldl summaryStep
            emptyTransferSummary).totalTransfers
        totalVolume :=
          ((erc20Transformed evs).foldl summaryStep
            emptyTransferSummary).totalVolume
        uniqueAddresses :=
          ((erc20Transformed evs).foldl summaryStep
            emptyTransferSummary).uniqueAddressSet.length
        topTransfers := ((erc20Transformed evs).mergeSort valueDescLe).take 10
        hourlyVolume :=
          ((erc20Transformed evs).foldl summaryStep
            emptyTransferSummary).hourlyVolume
        addressActivity :=
          ((erc20Transformed evs).foldl summaryStep
            emptyTransferSummary).addressActivity } := by
  unfold transformErc20Events
  rw [erc20Loop_ok evs htime]

/-- A well-formed Transfer log with value `v`, position marker `i` and
a truthy timestamp. -/
def mkTransferEvt (v : Nat) (i : Nat) : RawEvt :=
  { topics := [erc20TransferSigHex,
               List.replicate 24 0 ++ natToBe 16 40 1,
               List.replicate 24 0 ++ natToBe 16 40 2]
    data := natToBe 16 64 v
    blockNumber := i, logIndex := i, timestamp := 1 }

/-- Eleven Transfer logs: one of value `10 ^ 30`, ten of value 1. -/
def c8Events : List RawEvt :=
  mkTransferEvt (10 ^ 30) 0 :: (List.range 10).map (fun i => mkTransferEvt 1 (i + 1))

set_option maxRecDepth 10000 in
theorem c8Events_transformed_length : (erc20Transformed c8Events).length = 11 := by
  decide

set_option maxRecDepth 10000 in
/-- Counterexample to C8: on eleven transfers of exact total
`10 ^ 30 + 10` (every timestamp truthy, so the batch succeeds), the
transformer's `total_volume` is `10 ^ 30` — the `Decimal` context
rounds every 28-significant-digit overflow away — so it is not the
exact integer sum; and `top_transfers` holds only 10 of the 11
transfers, so it is not the full sorted list of transfers. -/
theorem erc20_aggregation_claim_cex :
    ((transformErc20Events c8Events).map
        (fun o => (o.events.map (fun t => t.value)).sum)
      = Except.ok (10 ^ 30 + 10))
    ∧ ((transformErc20Events c8Events).map (fun o => o.totalVolume)
      = Except.ok (10 ^ 30))
    ∧ ((transformErc20Events c8Events).map (fun o => o.totalVolume)
      ≠ (transformErc20Events c8Events).map
          (fun o => (o.events.map (fun t => t.value)).sum))
    ∧ ((transformErc20Events c8Events).map (fun o => o.events.length)
      = Except.ok 11)
    ∧ ((transformErc20Events c8Events).map (fun o => o.topTransfers.length)
      = Except.ok 10) := by
  refine ⟨by decide, by decide, by decide, by decide, ?_⟩
  have htime : ∀ e ∈ c8Events, isErc20Transfer e = true → e.timestamp ≠ 0 := by
    decide
  rw [transformErc20Events_ok c8Events htime]
  simp only [Except.map]
  rw [List.length_take, List.length_mergeSort, c8Events_transformed_length]
  decide

theorem valueDescLe_trans (a b c : TransferRecord)
    (hab : valueDescLe a b) (hbc : valueDescLe b c) : valueDescLe a c := by
  simp only [valueDescLe, decide_eq_true_eq] at *
  omega

theorem valueDescLe_total (a b : TransferRecord) :
    valueDescLe a b || valueDescLe b a := by
  simp only [valueDescLe]
  by_cases h : b.value ≤ a.value <;> simp [h] <;> omega

/-- The aggregation facts the amended C8 asserts for a batch that
succeeds (all transfer timestamps truthy): exact total volume (under
the no-rounding bound), exact distinct-address count, and
`top_transfers` equal to the first 10 entries of the stable descending
sort — sorted descending, a permutation prefix, with ties kept in input
order. -/
def Erc20AggregationProp (evs : List RawEvt) : Prop :=
  ∃ out : Erc20Output,
    transformErc20Events evs = Except.ok out
    ∧ out.events = erc20Transformed evs
    ∧ out.totalVolume = (out.events.map (fun t => t.value)).sum
    ∧ out.uniqueAddresses
      = (out.events.flatMap (fun t => [t.fromAddress, t.toAddress])).toFinset.card
    ∧ out.topTransfers = (out.events.mergeSort valueDescLe).take 10
    ∧ out.topTransfers.length = min 10 out.events.length
    ∧ out.topTransfers.Pairwise (fun a b => b.value ≤ a.value)
    ∧ (out.events.mergeSort valueDescLe).Perm out.events
    ∧ (∀ a b : TransferRecord, valueDescLe a b = true
        → List.Sublist [a, b] out.events
        → List.Sublist [a, b] (out.events.mergeSort valueDescLe))

/-- C8 (amended): for any batch whose transfers all carry truthy
timestamps (otherwise the source aborts with a TypeError) and whose
decoded values total below `10 ^ 28` (so `Decimal` context arithmetic
is exact), the transformer succeeds, `total_volume` is the exact
integer sum of the decoded values and `unique_addresses` the exact
cardinality of the union of all from/to addresses; and `top_transfers`
is the first 10 entries (not all, when more transfers exist) of the
stable descending sort by value: sorted descending, drawn from a
permutation of the transfers, ties kept in input order. -/
theorem erc20_aggregation_amended (evs : List RawEvt)
    (htime : ∀ e ∈ evs, isErc20Transfer e = true → e.timestamp ≠ 0)
    (hsum : ((erc20Transformed evs).map (fun t => t.value)).sum < 10 ^ 28) :
    Erc20AggregationProp evs := by
  refine ⟨_, transformErc20Events_ok evs htime, rfl, ?_, ?_, rfl, ?_, ?_, ?_, ?_⟩
  · show ((erc20Transformed evs).foldl summaryStep
        emptyTransferSummary).totalVolume = _
    rw [foldl_summaryStep_totalVolume]
    have h0 : emptyTransferSummary.totalVolume = 0 := rfl
    rw [h0, foldl_decAdd_eq_sum _ 0 (by omega)]
    dsimp only
    omega
  · show ((erc20Transformed evs).foldl summaryStep
        emptyTransferSummary).uniqueAddressSet.length = _
    rw [foldl_summaryStep_uniqueSet]
    have h0 : emptyTransferSummary.uniqueAddressSet = ([] : List (List Nat)) := rfl
    rw [h0]
    exact foldl_setInsert_length _
  · show (((erc20Transformed evs).mergeSort valueDescLe).take 10).length = _
    rw [List.length_take, List.length_mergeSort]
  · show (((erc20Transformed evs).mergeSort valueDescLe).take 10).Pairwise _
    have hp := List.sorted_mergeSort valueDescLe_trans valueDescLe_total
      (erc20Transformed evs)
    have hp2 := hp.sublist (List.take_sublist 10 _)
    exact hp2.imp (fun h => by
      simpa [valueDescLe, decide_eq_true_eq] using h)
  · exact List.mergeSort_perm _ _
  · intro a b hab hsub
    exact List.pair_sublist_mergeSort valueDescLe_trans valueDescLe_total hab hsub

/-- Three small transfers (values 5, 5, 3, with a tie) for the witness. -/
def c8SmallEvents : List RawEvt :=
  [mkTransferEvt 5 0, mkTransferEvt 5 1, mkTransferEvt 3 2]

set_option maxRecDepth 10000 in
/-- Witness for the amended C8 on a three-transfer batch with truthy
timestamps whose total is far below the 28-digit bound. -/
theorem erc20_aggregation_amended_witness :
    (∀ e ∈ c8SmallEvents, isErc20Transfer e = true → e.timestamp ≠ 0)
    ∧ ((erc20Transformed c8SmallEvents).map (fun t => t.value)).sum < 10 ^ 28
    ∧ Erc20AggregationProp c8SmallEvents :=
  ⟨by decide, by decide,
    erc20_aggregation_amended c8SmallEvents (by decide) (by decide)⟩
